import Mathlib

/-!
Verification of the `lmc` repository (Little Man Computer).

Shallow embedding of the two C programs of the repository:

* `src/lmc.c`   — the emulator (image loader + fetch/decode/execute CPU loop);
* `src/lmasm.c` — the two-pass assembler (scanner, label table, pass 1
  address allocation, pass 2 encoding).

C `int` values are modelled as `Int`; C truncating division/remainder (`/`,
`%`) are `Int.tdiv` / `Int.tmod` (both truncate toward zero, as in C99).
Character streams (`fgetc`/`ungetc` on a `FILE *`) are modelled as
`List Char`, where `fgetc` takes the head (`none` = `EOF`) and `ungetc c`
is `c :: ·`.  Loops of the C source that cannot be given a structural
termination argument (they can in fact diverge on some inputs) take a
fuel parameter; running out of fuel is a distinguished `none` outcome.
Out-of-bounds array accesses of the C source (undefined behavior) are
modelled as a distinguished `undef`-style outcome, never as a defined
result.
-/

/-- Decidable equality for `Except`, used to evaluate the embedded
functions on concrete inputs. -/
instance {ε α : Type} [DecidableEq ε] [DecidableEq α] : DecidableEq (Except ε α) := fun x y =>
  match x, y with
  | .ok a, .ok b =>
    if h : a = b then isTrue (by rw [h]) else isFalse (fun hc => h (Except.ok.inj hc))
  | .ok _, .error _ => isFalse (fun hc => Except.noConfusion hc)
  | .error _, .ok _ => isFalse (fun hc => Except.noConfusion hc)
  | .error e, .error f =>
    if h : e = f then isTrue (by rw [h]) else isFalse (fun hc => h (Except.error.inj hc))

namespace LMC

/-! Emulator state (`src/lmc.c`) -/

/-- Source: `#define NUM_MAILBOXES 100` -/
def NUM_MAILBOXES : Nat := 100

/-- Source: `#define NUM_DIGITS 3` -/
def NUM_DIGITS : Nat := 3

/-- Source: `#define MAX_VALUE 999` -/
def MAX_VALUE : Int := 999

/-- Unfolding equation for `NUM_MAILBOXES`. -/
theorem NUM_MAILBOXES_eq : NUM_MAILBOXES = 100 := rfl

/-- Unfolding equation for `NUM_DIGITS`. -/
theorem NUM_DIGITS_eq : NUM_DIGITS = 3 := rfl

/-- Source: `struct lmc_cpu` of `src/lmc.c`. -/
structure lmc_cpu where
  a : Int
  pc : Int
  instruction : Int
  opcode : Int
  addr : Int
  neg : Bool
  halted : Bool
  error : Bool
deriving Repr, DecidableEq

/-- Source: `struct lmc` of `src/lmc.c`: the mailbox array plus the CPU record.
The C array has static length `NUM_MAILBOXES`; here it is a list whose
length is `NUM_MAILBOXES` for every state built by the loader. -/
structure lmc where
  mailboxes : List Int
  cpu : lmc_cpu
deriving Repr, DecidableEq

/-- Reading `mailboxes[i]` with a C `int` index: defined only for
`0 <= i < length` (anything else is an out-of-bounds read, undefined
behavior in the C source, `none` here). -/
def memRead (mem : List Int) (i : Int) : Option Int :=
  if 0 ≤ i ∧ i.toNat < mem.length then some (mem.getD i.toNat 0) else none

/-- Writing `mailboxes[i] = v`: defined only for in-range `i`. -/
def memWrite (mem : List Int) (i : Int) (v : Int) : Option (List Int) :=
  if 0 ≤ i ∧ i.toNat < mem.length then some (mem.set i.toNat v) else none

/-- The execution state threaded through the emulator: the machine itself
plus the console streams.  `inputs`/`outputs` model `scanf`/`printf` on
the console; `dumps` models the full CPU-state dumps that
`bad_instruction` prints to `stderr`. -/
structure ExecState where
  m : lmc
  inputs : List Int
  outputs : List Int
  dumps : List lmc_cpu
deriving Repr, DecidableEq

/-- Source: `bad_instruction` of `src/lmc.c`: dump the full CPU state to the
error stream, then set `halted = true` and `error = true`. -/
def bad_instruction (es : ExecState) : ExecState :=
  { es with
    dumps := es.dumps ++ [es.m.cpu]
    m := { es.m with cpu := { es.m.cpu with halted := true, error := true } } }

/-- Source: `lmc_halt`. -/
def lmc_halt (m : lmc) : lmc :=
  { m with cpu := { m.cpu with halted := true } }

/-- Source: `lmc_add`: `a += mailboxes[addr]; neg = a > MAX_VALUE; if neg, a -= MAX_VALUE + 1`.
`none` when `addr` indexes outside the mailbox array. -/
def lmc_add (m : lmc) : Option lmc :=
  match memRead m.mailboxes m.cpu.addr with
  | none => none
  | some v =>
    let a1 := m.cpu.a + v
    let neg := a1 > MAX_VALUE
    some { m with cpu := { m.cpu with
            a := if neg then a1 - (MAX_VALUE + 1) else a1, neg := neg } }

/-- Source: `lmc_sub`: `a -= mailboxes[addr]; neg = a < 0; if neg, a += MAX_VALUE + 1`. -/
def lmc_sub (m : lmc) : Option lmc :=
  match memRead m.mailboxes m.cpu.addr with
  | none => none
  | some v =>
    let a1 := m.cpu.a - v
    let neg := a1 < 0
    some { m with cpu := { m.cpu with
            a := if neg then a1 + (MAX_VALUE + 1) else a1, neg := neg } }

/-- Source: `lmc_store`: `mailboxes[addr] = a`. -/
def lmc_store (m : lmc) : Option lmc :=
  match memWrite m.mailboxes m.cpu.addr m.cpu.a with
  | none => none
  | some mem => some { m with mailboxes := mem }

/-- Source: `lmc_load`: `a = mailboxes[addr]`. -/
def lmc_load (m : lmc) : Option lmc :=
  match memRead m.mailboxes m.cpu.addr with
  | none => none
  | some v => some { m with cpu := { m.cpu with a := v } }

/-- Source: `lmc_branch`: `pc = addr`. -/
def lmc_branch (m : lmc) : lmc :=
  { m with cpu := { m.cpu with pc := m.cpu.addr } }

/-- Source: `lmc_branch_zero`: branch only if `a == 0`. -/
def lmc_branch_zero (m : lmc) : lmc :=
  if m.cpu.a = 0 then { m with cpu := { m.cpu with pc := m.cpu.addr } } else m

/-- Source: `lmc_branch_positive`: branch only if the negative flag is clear. -/
def lmc_branch_positive (m : lmc) : lmc :=
  if ¬m.cpu.neg then { m with cpu := { m.cpu with pc := m.cpu.addr } } else m

/-- Source: `lmc_io`: `switch (addr)`; case 1 reads one integer from the console
into `a` (the C `scanf` loop blocks until a number arrives, so an empty
input stream is `none` = blocked forever); case 2 prints `a`; any other
address field falls to `bad_instruction`. -/
def lmc_io (es : ExecState) : Option ExecState :=
  if es.m.cpu.addr = 1 then
    match es.inputs with
    | [] => none
    | v :: rest =>
      some { es with m := { es.m with cpu := { es.m.cpu with a := v } }, inputs := rest }
  else if es.m.cpu.addr = 2 then
    some { es with outputs := es.outputs ++ [es.m.cpu.a] }
  else
    some (bad_instruction es)

/-- Outcome of the fetch-decode-execute loop of `main` in `src/lmc.c`. -/
inductive RunResult
  /-- The `while (!halted)` loop exited normally. -/
  | halted (es : ExecState)
  /-- The C source performed an out-of-bounds array access (undefined
  behavior): out-of-range fetch, data access, or `OPS[]` index. -/
  | undef (es : ExecState)
  /-- The `scanf` loop blocks with no input available. -/
  | blocked (es : ExecState)
  /-- Fuel exhausted (the C loop would keep running). -/
  | out_of_fuel (es : ExecState)
deriving Repr, DecidableEq

/-- Lines 246–248 of `src/lmc.c`, given the fetched word `w`:
`instruction = w; pc += 1; opcode = instruction / NUM_MAILBOXES;
addr = instruction % NUM_MAILBOXES` (C `/` and `%` truncate toward
zero). -/
def fetch_decode (es : ExecState) (w : Int) : ExecState :=
  { es with m := { es.m with cpu :=
      { es.m.cpu with
        instruction := w
        pc := es.m.cpu.pc + 1
        opcode := Int.tdiv w (NUM_MAILBOXES : Int)
        addr := Int.tmod w (NUM_MAILBOXES : Int) } } }

/-- How one pass through the loop body after the decode ends. -/
inductive StepAction
  /-- The loop goes on to the next iteration. -/
  | next (es : ExecState)
  /-- Source: `bad_instruction` at dispatch followed by `break`. -/
  | brk (es : ExecState)
  /-- Out-of-bounds array access (C undefined behavior). -/
  | undef (es : ExecState)
  /-- Source: `scanf` blocks with no input available. -/
  | blocked (es : ExecState)
deriving Repr, DecidableEq

/-- The dispatch-and-execute part of the loop body (`src/lmc.c` lines
250–256) on the already decoded state: `opcode > 9` or a `NULL` `OPS`
entry (`OPS[4]`) is `bad_instruction` followed by `break`; a negative
`opcode` indexes `OPS` out of bounds; otherwise the operation handler
runs and the loop continues. -/
def lmc_exec (es1 : ExecState) : StepAction :=
  if es1.m.cpu.opcode > 9 then .brk (bad_instruction es1)
  else if es1.m.cpu.opcode < 0 then .undef es1
  else
    match es1.m.cpu.opcode.toNat with
    | 0 => .next { es1 with m := lmc_halt es1.m }
    | 1 =>
      match lmc_add es1.m with
      | none => .undef es1
      | some m2 => .next { es1 with m := m2 }
    | 2 =>
      match lmc_sub es1.m with
      | none => .undef es1
      | some m2 => .next { es1 with m := m2 }
    | 3 =>
      match lmc_store es1.m with
      | none => .undef es1
      | some m2 => .next { es1 with m := m2 }
    | 4 => .brk (bad_instruction es1)
    | 5 =>
      match lmc_load es1.m with
      | none => .undef es1
      | some m2 => .next { es1 with m := m2 }
    | 6 => .next { es1 with m := lmc_branch es1.m }
    | 7 => .next { es1 with m := lmc_branch_zero es1.m }
    | 8 => .next { es1 with m := lmc_branch_positive es1.m }
    | 9 =>
      match lmc_io es1 with
      | none => .blocked es1
      | some es2 => .next es2
    | _ => .undef es1

/-- The fetch-decode-execute loop of `main` in `src/lmc.c`:
while not halted, fetch `mailboxes[pc++]` (unguarded in C: an
out-of-range `pc` is an out-of-bounds read), decode via `fetch_decode`,
then dispatch and execute via `lmc_exec`. -/
def lmc_run : Nat → ExecState → RunResult
  | 0, es => .out_of_fuel es
  | fuel + 1, es =>
    if es.m.cpu.halted then .halted es
    else
      match memRead es.m.mailboxes es.m.cpu.pc with
      | none => .undef es
      | some w =>
        match lmc_exec (fetch_decode es w) with
        | .next es2 => lmc_run fuel es2
        | .brk es2 => .halted es2
        | .undef es2 => .undef es2
        | .blocked es2 => .blocked es2

/-- Source: `return !!lmc.cpu.error;` at the end of `main`. -/
def lmc_exit_code (es : ExecState) : Int :=
  if es.m.cpu.error then 1 else 0

/-! Image loader (`src/lmc.c` `main`, lines 213–240) -/

/-- The load loop: `while ((c = fgetc(...)) != EOF) { mailbox =
&mailboxes[i / NUM_DIGITS]; *mailbox = *mailbox * 10 + c; ++i; }`.
The index `i / NUM_DIGITS` is not bounds-checked in C; an out-of-range
write is undefined behavior, `none` here. -/
def load_loop : List Int → Nat → List Int → Option (List Int)
  | [], _, mem => some mem
  | c :: rest, i, mem =>
    if i / NUM_DIGITS < mem.length then
      load_loop rest (i + 1)
        (mem.set (i / NUM_DIGITS) (mem.getD (i / NUM_DIGITS) 0 * 10 + c))
    else none

/-- The per-mailbox accumulation of the load loop: `*mailbox =
*mailbox * 10 + c` over the digit bytes of one mailbox, starting from the
zeroed cell. -/
def mailbox_of_digits (digits : List Int) : Int :=
  digits.foldl (fun v c => v * 10 + c) 0

/-- Outcome of the loader. -/
inductive LoadResult
  /-- All bytes stored; byte count was a multiple of `NUM_DIGITS`. -/
  | ok (mem : List Int)
  /-- Source: `File size is not a multiple of the number of digits per mailbox`. -/
  | sizeErr
  /-- The loop wrote outside the mailbox array (undefined behavior). -/
  | undef
deriving Repr, DecidableEq

/-- The whole load phase: `memset(&lmc, 0, ...)` zeroes the mailboxes,
the loop accumulates every input byte, and only afterwards is
`i % NUM_DIGITS` checked. -/
def lmc_load_image (bytes : List Int) : LoadResult :=
  match load_loop bytes 0 (List.replicate NUM_MAILBOXES 0) with
  | none => .undef
  | some mem =>
    if bytes.length % NUM_DIGITS ≠ 0 then .sizeErr else .ok mem

/-- The zeroed CPU produced by `memset(&lmc, 0, sizeof lmc)`. -/
def lmc_cpu_init : lmc_cpu :=
  { a := 0, pc := 0, instruction := 0, opcode := 0, addr := 0,
    neg := false, halted := false, error := false }

/-- Initial execution state for a loaded memory image and a console
input script. -/
def lmc_init (mem : List Int) (inputs : List Int) : ExecState :=
  { m := { mailboxes := mem, cpu := lmc_cpu_init },
    inputs := inputs, outputs := [], dumps := [] }

/-! Observers on run results, used to state properties of whole runs. -/

/-- Observer: did the run end through the `while (!halted)` condition. -/
def run_is_halted : RunResult → Bool
  | .halted _ => true
  | _ => false

/-- Observer: did the run hit an out-of-bounds access (C undefined
behavior). -/
def run_is_undef : RunResult → Bool
  | .undef _ => true
  | _ => false

/-- Observer: console output of a normally halted run. -/
def run_outputs : RunResult → Option (List Int)
  | .halted es => some es.outputs
  | _ => none

/-- Observer: number of CPU dumps printed to the error stream during a
normally halted run. -/
def run_dump_count : RunResult → Option Nat
  | .halted es => some es.dumps.length
  | _ => none

/-- Observer: process exit code of a normally halted run. -/
def run_exit_code : RunResult → Option Int
  | .halted es => some (lmc_exit_code es)
  | _ => none

/-- Observer: the program counter of the final state, whichever way the
run ended. -/
def run_pc : RunResult → Int
  | .halted es | .undef es | .blocked es | .out_of_fuel es => es.m.cpu.pc

end LMC

namespace LMASM

/-! Assembler (`src/lmasm.c`) -/

/-- Source: `#define MAX_LABEL_LEN 32` -/
def MAX_LABEL_LEN : Nat := 32

/-- Source: `#define MAX_OPCODE_LEN 3` -/
def MAX_OPCODE_LEN : Nat := 3

/-- C `isblank`: space or horizontal tab. -/
def isblank (c : Char) : Bool := c == ' ' || c == '\t'

/-- Source: `islabel` of `src/lmasm.c`: `isalpha(c) || isdigit(c) || c == '_'`. -/
def islabel (c : Char) : Bool := c.isAlpha || c.isDigit || c == '_'

/-- C `isspace`: space, tab, newline, vertical tab, form feed, carriage
return. -/
def isspace_c (c : Char) : Bool :=
  c == ' ' || c == '\t' || c == '\n' || c == '\x0b' || c == '\x0c' || c == '\r'

/-- The messages passed to the `syntax(msg, line)` error reporter. -/
inductive ScanMsg
  | expectedEndOfLine
  | unexpectedSlash
  | labelBeginsWithDigit
  | invalidAddressField
deriving Repr, DecidableEq

/-- Every fatal diagnostic of the assembler, with the data the C
`fprintf` calls interpolate into the message. -/
inductive AsmErr
  | scanErr (msg : ScanMsg) (line : Nat)
  | labelTooLong (line : Nat)
  | undefinedLabel (line : Nat) (label : String)
  | datRange (value : Int)
  | mailboxRange (name : String) (addr : Int)
  | opcodeTooLong (line : Nat)
  | noSuchInstruction (line : Nat) (name : String)
  | unexpectedEof
  | programTooLong (mailboxes : Int) (max : Int)
deriving Repr, DecidableEq

/-- Source: `enum lmasm_arg_format`. -/
inductive lmasm_arg_format
  | NO_ARGUMENT
  | ONE_ARGUMENT
  | MAYBE_ARGUMENT
deriving Repr, DecidableEq

/-- Source: `struct lmasm_conf` (the output-file handle and scratch buffer are
I/O plumbing and carry no data the encoders depend on). -/
structure lmasm_conf where
  num_digits : Nat
  max_addr : Int
  max_dat : Int
deriving Repr, DecidableEq

/-- The configuration `main` computes: `max_dat` starts as
`10 ^ num_digits` (a loop of multiplications in C), then
`max_addr = max_dat / 10 - 1` and `max_dat -= 1`. -/
def conf_init (num_digits : Nat) : lmasm_conf :=
  let md : Int := 10 ^ num_digits
  { num_digits := num_digits, max_addr := Int.tdiv md 10 - 1, max_dat := md - 1 }

/-- Source: `struct lmasm_label`. -/
structure lmasm_label where
  name : String
  addr : Int
deriving Repr, DecidableEq

/-- Source: `encode_decimal`: fill `num_digits` bytes with the big-endian decimal
digits of `n` (`buf[i] = n % 10; n /= 10` from the last slot down). -/
def encode_decimal : Int → Nat → List Int
  | _, 0 => []
  | n, num_digits + 1 => encode_decimal (Int.tdiv n 10) num_digits ++ [Int.tmod n 10]

/-- Source: `lmasm_write_dat`: range-check against `max_dat`, then emit all
`num_digits` digits of the value. -/
def lmasm_write_dat (conf : lmasm_conf) (value : Int) : Except AsmErr (List Int) :=
  if value < 0 ∨ value > conf.max_dat then .error (.datRange value)
  else .ok (encode_decimal value conf.num_digits)

/-- Source: `lmasm_write_op`: range-check the address against `max_addr`, emit
the opcode value as the first byte, then digits `1 .. num_digits - 1` of
the encoded address. -/
def lmasm_write_op (name : String) (code : Int) (conf : lmasm_conf) (addr : Int) :
    Except AsmErr (List Int) :=
  if addr < 0 ∨ addr > conf.max_addr then .error (.mailboxRange name addr)
  else .ok (code :: (encode_decimal addr conf.num_digits).drop 1)

/-- Source: `lmasm_write_io`: both I/O ops are machine code `9xx`; a synthesized
opcode with code 9 is written through `lmasm_write_op`, passing the own
code (1 or 2) as the address.  The synthesized record has a `NULL` name,
only dereferenced on a range error, which codes 1 and 2 never trigger. -/
def lmasm_write_io (code : Int) (conf : lmasm_conf) (_addr : Int) : Except AsmErr (List Int) :=
  lmasm_write_op "" 9 conf code

/-- Which write function pointer an `OPCODES` row carries. -/
inductive WriteFn
  | write_dat
  | write_op
  | write_io
deriving Repr, DecidableEq

/-- Source: `struct lmasm_opcode`: one row of the static catalog. -/
structure lmasm_opcode where
  name : String
  write : WriteFn
  code : Int
  arg_format : lmasm_arg_format
deriving Repr, DecidableEq

/-- The `OPCODES` catalog of `src/lmasm.c`, in source order. -/
def OPCODES : List lmasm_opcode :=
  [ { name := "DAT", write := .write_dat, code := -1, arg_format := .MAYBE_ARGUMENT },
    { name := "HLT", write := .write_op, code := 0, arg_format := .NO_ARGUMENT },
    { name := "COB", write := .write_op, code := 0, arg_format := .NO_ARGUMENT },
    { name := "ADD", write := .write_op, code := 1, arg_format := .ONE_ARGUMENT },
    { name := "SUB", write := .write_op, code := 2, arg_format := .ONE_ARGUMENT },
    { name := "STA", write := .write_op, code := 3, arg_format := .ONE_ARGUMENT },
    { name := "LDA", write := .write_op, code := 5, arg_format := .ONE_ARGUMENT },
    { name := "BRA", write := .write_op, code := 6, arg_format := .ONE_ARGUMENT },
    { name := "BRZ", write := .write_op, code := 7, arg_format := .ONE_ARGUMENT },
    { name := "BRP", write := .write_op, code := 8, arg_format := .ONE_ARGUMENT },
    { name := "INP", write := .write_io, code := 1, arg_format := .NO_ARGUMENT },
    { name := "OUT", write := .write_io, code := 2, arg_format := .NO_ARGUMENT } ]

/-- Source: `instruction->write(instruction, &conf, addr)`: dispatch through the
function pointer of the catalog row. -/
def opcode_write (op : lmasm_opcode) (conf : lmasm_conf) (addr : Int) :
    Except AsmErr (List Int) :=
  match op.write with
  | .write_dat => lmasm_write_dat conf addr
  | .write_op => lmasm_write_op op.name op.code conf addr
  | .write_io => lmasm_write_io op.code conf addr

/-! Scanner primitives -/

/-- Source: `next_non_blank`: read until a non-blank character or EOF; returns
the character read (`none` = EOF) and the rest of the stream. -/
def next_non_blank : List Char → Option Char × List Char
  | [] => (none, [])
  | c :: rest => if isblank c then next_non_blank rest else (some c, rest)

/-- Source: `finish_line`: consume the rest of the line; outside a comment only
blanks and a `//` comment may appear before the newline.  Returns the
outcome and the stream after the line.  On a first `/` the C source
fetches the second character and errors unless it is another `/`; here
the second slash is inspected by lookahead and, when present, left in
the stream for the comment-mode recursion to skip (comment mode consumes
every character up to the newline, so the result is the same). -/
def finish_line : List Char → Bool → Nat → Except AsmErr Unit × List Char
  | [], _, _ => (.ok (), [])
  | c :: rest, in_comment, cur_line =>
    if c = '\n' then (.ok (), rest)
    else if isblank c || in_comment then finish_line rest in_comment cur_line
    else if c ≠ '/' then (.error (.scanErr .expectedEndOfLine cur_line), rest)
    else if rest.head? = some '/' then finish_line rest true cur_line
    else (.error (.scanErr .unexpectedSlash cur_line), rest.tail)

/-- The collecting loop of `parse_label`: consume label characters while
under `MAX_LABEL_LEN`, then push the breaking character back; a label
character while already at the maximum is the oversized-label error. -/
def parse_label_loop : List Char → List Char → Nat → Nat → Except AsmErr (String × List Char)
  | [], acc, _, _ => .ok (String.mk acc.reverse, [])
  | c :: rest, acc, i, cur_line =>
    if islabel c ∧ i < MAX_LABEL_LEN then parse_label_loop rest (c :: acc) (i + 1) cur_line
    else if i = MAX_LABEL_LEN ∧ islabel c then .error (.labelTooLong cur_line)
    else .ok (String.mk acc.reverse, c :: rest)

/-- Source: `parse_label`: a label may not begin with a digit; an empty stream
(EOF) yields the empty label, as in C where `isdigit(EOF)` is false and
the loop never runs. -/
def parse_label (s : List Char) (cur_line : Nat) : Except AsmErr (String × List Char) :=
  match s with
  | [] => .ok ("", [])
  | c :: rest =>
    if c.isDigit then .error (.scanErr .labelBeginsWithDigit cur_line)
    else parse_label_loop (c :: rest) [] 0 cur_line

/-- The digit-accumulation loop of `parse_addr`:
`addr = addr * 10 + (c - 48)` while digits keep coming (48 is ASCII `0`);
the breaking character stays at the head of the returned stream. -/
def read_digits : List Char → Int → Int × List Char
  | [], addr => (addr, [])
  | c :: rest, addr =>
    if c.isDigit then read_digits rest (addr * 10 + ((c.toNat : Int) - 48))
    else (addr, c :: rest)

/-- The lookup loop of `parse_addr`: scan the label table in insertion
order; the first `strcmp` match wins and the scan stops there. -/
def label_lookup : List lmasm_label → String → Option Int
  | [], _ => none
  | l :: rest, buf => if buf = l.name then some l.addr else label_lookup rest buf

/-- Source: `parse_addr` (`src/lmasm.c` lines 271–338): a decimal literal, or a
label resolved through the table; an unresolved label is the fatal
`no such label` diagnostic naming the current line and the label. -/
def parse_addr (s : List Char) (labels : List lmasm_label) (cur_line : Nat) :
    Except AsmErr (Int × List Char) :=
  match s with
  | [] => .error (.scanErr .invalidAddressField cur_line)
  | c :: rest =>
    if c.isDigit then
      match read_digits rest ((c.toNat : Int) - 48) with
      | (addr, []) => .ok (addr, [])
      | (addr, c2 :: rest2) =>
        if islabel c2 then .error (.scanErr .labelBeginsWithDigit cur_line)
        else if c2 = '\n' then .ok (addr, rest2)
        else
          match finish_line (c2 :: rest2) false cur_line with
          | (.error e, _) => .error e
          | (.ok _, s3) => .ok (addr, s3)
    else if islabel c then
      match parse_label (c :: rest) cur_line with
      | .error e => .error e
      | .ok (buf, s2) =>
        match label_lookup labels buf with
        | none => .error (.undefinedLabel cur_line buf)
        | some addr =>
          match finish_line s2 false cur_line with
          | (.error e, _) => .error e
          | (.ok _, s3) => .ok (addr, s3)
    else .error (.scanErr .invalidAddressField cur_line)

/-! Pass 1 — label collection and address allocation -/

/-- The mutable state of the pass-1 scan in `main`. -/
structure Pass1State where
  labels : List lmasm_label
  cur_addr : Int
  cur_line : Nat
deriving Repr, DecidableEq

/-- The inner blank/operand loop of the pass-1 scan (`src/lmasm.c` lines
444–467): after a leading blank, find the first non-blank character; `/`
runs the comment check, and any other non-blank character allocates one
mailbox (`++cur_addr`), after which the rest of the line is skipped in
comment-tolerant mode (whose return code the C source ignores; with
`in_comment` true `finish_line` cannot fail). -/
def pass1_inner : List Char → Pass1State → Except AsmErr (Pass1State × List Char)
  | [], st => .ok (st, [])
  | c :: rest, st =>
    if c = '\n' then .ok (st, rest)
    else if c = '/' then
      match finish_line (c :: rest) false st.cur_line with
      | (.error e, _) => .error e
      | (.ok _, s2) => .ok (st, s2)
    else if ¬ isblank c then
      .ok ({ st with cur_addr := st.cur_addr + 1 }, (finish_line rest true st.cur_line).2)
    else pass1_inner rest st

/-- The outer pass-1 loop (`src/lmasm.c` lines 397–468): one iteration
per character fetched at the top; a line whose first column is non-blank
starts a label recorded at the current address.  Fuel bounds the
iteration count, because the C loop diverges on some inputs (a line
starting with a character that is neither blank, label, slash nor
newline is fetched and pushed back forever); `none` = fuel exhausted. -/
def pass1_loop : Nat → List Char → Pass1State → Option (Except AsmErr Pass1State)
  | 0, _, _ => none
  | fuel + 1, s, st =>
    match s with
    | [] => some (.ok st)
    | c :: rest =>
      let st1 := { st with cur_line := st.cur_line + 1 }
      if c = '\n' then pass1_loop fuel rest st1
      else if c = '/' then
        match finish_line (c :: rest) false st1.cur_line with
        | (.error e, _) => some (.error e)
        | (.ok _, s2) => pass1_loop fuel s2 st1
      else if ¬ isblank c then
        match parse_label (c :: rest) st1.cur_line with
        | .error e => some (.error e)
        | .ok (name, s2) =>
          pass1_loop fuel s2
            { st1 with labels := st1.labels ++ [{ name := name, addr := st1.cur_addr }] }
      else
        match pass1_inner rest st1 with
        | .error e => some (.error e)
        | .ok (st2, s2) => pass1_loop fuel s2 st2

/-- The post-scan length check (`src/lmasm.c` lines 470–476):
`if (cur_addr > conf.max_addr)` the run aborts with
`Program is too long. %d mailboxes, max %d`. -/
def pass1_length_check (conf : lmasm_conf) (st : Pass1State) : Except AsmErr Unit :=
  if st.cur_addr > conf.max_addr then
    .error (.programTooLong st.cur_addr conf.max_addr)
  else .ok ()

/-! Pass 2 — encoding -/

/-- The label-skipping loop at the top of a pass-2 line:
`while (islabel(c) && (c = fgetc(input_file)) != EOF);`.  Returns the
first non-label character and the stream after it; `none` = EOF. -/
def skip_label : Char → List Char → Option (Char × List Char)
  | c, [] => if ¬ islabel c then some (c, []) else none
  | c, c2 :: rest => if ¬ islabel c then some (c, c2 :: rest) else skip_label c2 rest

/-- The blank-skipping loop that follows:
`while (isblank(c) && (c = fgetc(input_file)) != EOF);`. -/
def skip_blanks : Char → List Char → Option (Char × List Char)
  | c, [] => if ¬ isblank c then some (c, []) else none
  | c, c2 :: rest => if ¬ isblank c then some (c, c2 :: rest) else skip_blanks c2 rest

/-- The mnemonic read (`src/lmasm.c` lines 533–545): exactly `n`
characters starting at the current one; EOF mid-read is the fatal
`Unexpected EOF reading instruction`.  Returns the characters read, the
character that follows (`none` = EOF) and the rest of the stream. -/
def read_chars : Nat → Option Char → List Char → Option (List Char × Option Char × List Char)
  | 0, c, s => some ([], c, s)
  | _ + 1, none, _ => none
  | n + 1, some c, [] =>
    match read_chars n none [] with
    | none => none
    | some (cs, c2, s2) => some (c :: cs, c2, s2)
  | n + 1, some c, c2 :: rest =>
    match read_chars n (some c2) rest with
    | none => none
    | some (cs, c3, s3) => some (c :: cs, c3, s3)

/-- C `tolower` on the ASCII range, as used by `strcasecmp`. -/
def tolower (c : Char) : Char :=
  if c.isUpper then Char.ofNat (c.toNat + 32) else c

/-- Case-insensitive mnemonic equality: `strcasecmp(...) == 0` on the
ASCII catalog names, comparing the two names character by character
through `tolower`. -/
def strcasecmp_eq (a b : String) : Bool :=
  a.data.map tolower == b.data.map tolower

/-- The catalog scan of pass 2: first case-insensitive match wins. -/
def opcode_lookup (name : String) : Option lmasm_opcode :=
  OPCODES.find? (fun op => strcasecmp_eq op.name name)

/-- The outer pass-2 loop (`src/lmasm.c` lines 501–626), threaded with
the current line number and the bytes emitted so far.  Fuel bounds the
iterations; `none` = fuel exhausted. -/
def pass2_loop (conf : lmasm_conf) (labels : List lmasm_label) :
    Nat → List Char → Nat → List Int → Option (Except AsmErr (List Int))
  | 0, _, _, _ => none
  | fuel + 1, s, cur_line, out =>
    match s with
    | [] => some (.ok out)
    | c :: rest =>
      let line := cur_line + 1
      if c = '\n' then pass2_loop conf labels fuel rest line out
      else if c = '/' then
        match finish_line (c :: rest) false line with
        | (.error e, _) => some (.error e)
        | (.ok _, s2) => pass2_loop conf labels fuel s2 line out
      else
        match skip_label c rest with
        | none => some (.ok out)
        | some (c1, s1) =>
          match skip_blanks c1 s1 with
          | none => some (.ok out)
          | some (c2, s2) =>
            if c2 = '\n' then pass2_loop conf labels fuel s2 line out
            else
              match read_chars MAX_OPCODE_LEN (some c2) s2 with
              | none => some (.error .unexpectedEof)
              | some (cs, c4, s4) =>
                if c4.any (fun x => ! isspace_c x) then
                  some (.error (.opcodeTooLong line))
                else
                  match opcode_lookup (String.mk cs) with
                  | none => some (.error (.noSuchInstruction line (String.mk cs)))
                  | some instr =>
                    let s5 := match c4 with | some x => x :: s4 | none => s4
                    let nb := next_non_blank s5
                    let s7 := match nb.1 with | some x => x :: nb.2 | none => nb.2
                    let argres : Except AsmErr (Int × List Char) :=
                      match instr.arg_format with
                      | .NO_ARGUMENT =>
                        match finish_line s7 false line with
                        | (.error e, _) => .error e
                        | (.ok _, s8) => .ok (0, s8)
                      | .MAYBE_ARGUMENT =>
                        match nb.1 with
                        | none => .ok (0, s7)
                        | some x =>
                          if ¬ islabel x then
                            match finish_line s7 false line with
                            | (.error e, _) => .error e
                            | (.ok _, s8) => .ok (0, s8)
                          else parse_addr s7 labels line
                      | .ONE_ARGUMENT => parse_addr s7 labels line
                    match argres with
                    | .error e => some (.error e)
                    | .ok (addr, s8) =>
                      match opcode_write instr conf addr with
                      | .error e => some (.error e)
                      | .ok bytes => pass2_loop conf labels fuel s8 line (out ++ bytes)

/-- Result of a whole assembler run. -/
inductive AsmResult
  | ok (image : List Int)
  | err (e : AsmErr)
deriving Repr, DecidableEq

/-- Packaging of the pass-2 outcome into the outcome of the whole run:
an encoding error aborts `main` with `rc = 1`, success returns the
emitted image. -/
def pass2_result : Option (Except AsmErr (List Int)) → Option AsmResult
  | none => none
  | some (.error e) => some (.err e)
  | some (.ok out) => some (.ok out)

/-- The whole `main` of `src/lmasm.c` on a source text: pass 1 (label
collection and address allocation), the program-length check, then pass
2 over the rewound input.  `none` = fuel exhausted. -/
def lmasm_main (fuel : Nat) (src : List Char) : Option AsmResult :=
  let conf := conf_init 3
  match pass1_loop fuel src { labels := [], cur_addr := 0, cur_line := 0 } with
  | none => none
  | some (.error e) => some (.err e)
  | some (.ok st) =>
    match pass1_length_check conf st with
    | .error e => some (.err e)
    | .ok _ => pass2_result (pass2_loop conf st.labels fuel src 0 [])

/-- Exit code of the assembler process: the `rc` returned by `main`
(0 on success, 1 on any fatal condition). -/
def lmasm_exit_code : AsmResult → Int
  | .ok _ => 0
  | .err _ => 1

/-- A source of `n` copies of the line `" HLT"`: the leading blank keeps
the mnemonic from being taken as a label, so every line allocates
exactly one mailbox in pass 1. -/
def hlt_lines (n : Nat) : List Char :=
  List.flatten (List.replicate n (" HLT\n").toList)

end LMASM

open LMC LMASM

/-! Helper lemmas -/

/-- The configuration for a 3-digit system: `max_addr = 99`,
`max_dat = 999`. -/
theorem conf_init_three : conf_init 3 = { num_digits := 3, max_addr := 99, max_dat := 999 } := by
  decide

/-- Unfolding one line of an all-`" HLT"` source. -/
theorem hlt_lines_succ (n : Nat) :
    hlt_lines (n + 1) = (" HLT\n").toList ++ hlt_lines n := by
  simp [hlt_lines, List.replicate_succ]

/-- Pass 1 processes one `" HLT"` line in one outer iteration: it
allocates one mailbox, advances one line, and defines no label. -/
theorem pass1_hlt_step (fuel : Nat) (rest : List Char) (ls : List lmasm_label)
    (ca : Int) (cl : Nat) :
    pass1_loop (fuel + 1) ((" HLT\n").toList ++ rest) ⟨ls, ca, cl⟩ =
      pass1_loop fuel rest ⟨ls, ca + 1, cl + 1⟩ :=
  rfl

/-- Pass 1 on a source of `n` lines `" HLT"` succeeds and allocates
exactly `n` mailboxes. -/
theorem pass1_hlt_lines (n : Nat) : ∀ (ls : List lmasm_label) (ca : Int) (cl : Nat),
    pass1_loop (n + 1) (hlt_lines n) ⟨ls, ca, cl⟩ =
      some (.ok ⟨ls, ca + n, cl + n⟩) := by
  induction n with
  | zero =>
    intro ls ca cl
    show some (Except.ok (⟨ls, ca, cl⟩ : Pass1State)) = _
    norm_num
  | succ n ih =>
    intro ls ca cl
    have e1 : ca + ((n + 1 : Nat) : Int) = ca + 1 + (n : Int) := by push_cast; ring
    have e2 : cl + (n + 1) = cl + 1 + n := by omega
    rw [e1, e2, hlt_lines_succ, pass1_hlt_step, ih]

/-- Pass 2 processes one `" HLT"` line in one outer iteration, emitting
the three bytes 0,0,0. -/
theorem pass2_hlt_step (labels : List lmasm_label) (fuel : Nat) (rest : List Char)
    (line : Nat) (out : List Int) :
    pass2_loop (conf_init 3) labels (fuel + 1) ((" HLT\n").toList ++ rest) line out =
      pass2_loop (conf_init 3) labels fuel rest (line + 1) (out ++ [0, 0, 0]) :=
  rfl

/-- Pass 2 on a source of `n` lines `" HLT"` emits `n` all-zero
mailboxes. -/
theorem pass2_hlt_lines (n : Nat) : ∀ (labels : List lmasm_label) (line : Nat) (out : List Int),
    pass2_loop (conf_init 3) labels (n + 1) (hlt_lines n) line out =
      some (.ok (out ++ List.flatten (List.replicate n ([0, 0, 0] : List Int)))) := by
  induction n with
  | zero =>
    intro labels line out
    show some (Except.ok out) = _
    simp
  | succ n ih =>
    intro labels line out
    rw [hlt_lines_succ, pass2_hlt_step, ih]
    simp [List.replicate_succ]

/-! Claims -/

/-- C3, counterexample to the claim as stated: the claim says a source
allocating exactly `max_addr + 1` mailboxes passes the length check, but
on a source of exactly 100 lines of `" HLT"` pass 1 allocates
`cur_addr = 100 = max_addr + 1` mailboxes and the assembly fails fatally
with `Program is too long`. -/
theorem C3_counterexample :
    pass1_loop 101 (hlt_lines 100) ⟨[], 0, 0⟩ = some (.ok ⟨[], 100, 100⟩) ∧
    lmasm_main 101 (hlt_lines 100) = some (.err (.programTooLong 100 99)) := by
  have h100 := pass1_hlt_lines 100 [] 0 0
  norm_num at h100
  refine ⟨h100, ?_⟩
  unfold lmasm_main
  rw [h100]
  rfl

/-- C3 (amended): after the pass-1 scan, assembly fails fatally with
`Program is too long` iff the allocated mailbox count exceeds `max_addr`
(99 for `num_digits = 3`), i.e. from `max_addr + 1` mailboxes on; a
source allocating exactly `max_addr` mailboxes passes the length check
and assembles, while exactly `max_addr + 1` fails with exit code 1. -/
theorem C3_length_check :
    (∀ (conf : lmasm_conf) (st : Pass1State),
      pass1_length_check conf st =
          .error (.programTooLong st.cur_addr conf.max_addr) ↔
        st.cur_addr > conf.max_addr) ∧
    pass1_loop 100 (hlt_lines 99) ⟨[], 0, 0⟩ = some (.ok ⟨[], 99, 99⟩) ∧
    lmasm_main 100 (hlt_lines 99) =
      some (.ok (List.flatten (List.replicate 99 ([0, 0, 0] : List Int)))) ∧
    pass1_loop 101 (hlt_lines 100) ⟨[], 0, 0⟩ = some (.ok ⟨[], 100, 100⟩) ∧
    lmasm_main 101 (hlt_lines 100) = some (.err (.programTooLong 100 99)) ∧
    lmasm_exit_code (.err (.programTooLong 100 99)) = 1 := by
  have h99 := pass1_hlt_lines 99 [] 0 0
  have h100 := pass1_hlt_lines 100 [] 0 0
  norm_num at h99 h100
  refine ⟨fun conf st => ?_, h99, ?_, h100, ?_, rfl⟩
  · unfold pass1_length_check
    by_cases h : st.cur_addr > conf.max_addr
    · simp [h]
    · simp [h]
  · have h2 := pass2_hlt_lines 99 [] 0 []
    simp only [List.nil_append] at h2
    norm_num at h2
    have e1 : lmasm_main 100 (hlt_lines 99) =
        pass2_result (pass2_loop (conf_init 3) [] 100 (hlt_lines 99) 0 []) := by
      unfold lmasm_main
      rw [h99]
      rfl
    rw [e1, h2]
    rfl
  · unfold lmasm_main
    rw [h100]
    rfl

/-- C4, counterexample to the claim as stated: on the literal four-line
source `LDA FIVE\nOUT\nHLT\nFIVE DAT 5` the assembler treats the
column-0 mnemonics as labels (a line whose first column is non-blank
starts a label), so pass 2 reads `FIV` as the mnemonic of line 1,
finds the non-space `E` after it, and fails fatally with
`Opcode on line 1 is too long`, exit code 1 — the source does not
assemble at all. -/
theorem C4_counterexample :
    lmasm_main 200 ("LDA FIVE\nOUT\nHLT\nFIVE DAT 5").toList =
      some (.err (.opcodeTooLong 1)) ∧
    Option.map lmasm_exit_code
        (lmasm_main 200 ("LDA FIVE\nOUT\nHLT\nFIVE DAT 5").toList) = some 1 := by
  exact ⟨by decide, by decide⟩

/-- C4 (amended): the four-line source with its three instruction lines
indented — `" LDA FIVE\n OUT\n HLT\nFIVE DAT 5"` — assembles
successfully to exactly 4 mailboxes (12 bytes); mailbox 3 holds the
bytes 0,0,5 and decodes to the value 5; loading and executing the image
prints 5 and the emulator exits with code 0. -/
theorem C4_scenario :
    lmasm_main 200 (" LDA FIVE\n OUT\n HLT\nFIVE DAT 5").toList =
      some (.ok [5, 0, 3, 9, 0, 2, 0, 0, 0, 0, 0, 5]) ∧
    ([5, 0, 3, 9, 0, 2, 0, 0, 0, 0, 0, 5] : List Int).length = 4 * NUM_DIGITS ∧
    lmc_load_image [5, 0, 3, 9, 0, 2, 0, 0, 0, 0, 0, 5] =
      .ok ([503, 902, 0, 5] ++ List.replicate 96 0) ∧
    List.getD ([503, 902, 0, 5] ++ List.replicate 96 0) 3 0 = 5 ∧
    run_outputs (lmc_run 20 (lmc_init ([503, 902, 0, 5] ++ List.replicate 96 0) [])) =
      some [5] ∧
    run_exit_code (lmc_run 20 (lmc_init ([503, 902, 0, 5] ++ List.replicate 96 0) [])) =
      some 0 := by
  exact ⟨by decide, by decide, by decide, by decide, by decide, by decide⟩

/-- C8: boundary behaviour of the encoders. A `DAT` operand of exactly
`max_dat = 999` encodes as the digits 9,9,9 while 1000 fails fatally
with `DAT value out of range`; an address operand of exactly
`max_addr = 99` encodes while 100 fails with the `mailbox out of range`
error; each failure aborts the whole assembler run with exit code 1. -/
theorem C8_boundaries :
    lmasm_write_dat (conf_init 3) 999 = .ok [9, 9, 9] ∧
    lmasm_write_dat (conf_init 3) 1000 = .error (.datRange 1000) ∧
    lmasm_write_op "STA" 3 (conf_init 3) 99 = .ok [3, 9, 9] ∧
    lmasm_write_op "STA" 3 (conf_init 3) 100 = .error (.mailboxRange "STA" 100) ∧
    lmasm_main 200 (" DAT 999\n").toList = some (.ok [9, 9, 9]) ∧
    lmasm_main 200 (" DAT 1000\n").toList = some (.err (.datRange 1000)) ∧
    lmasm_main 200 (" STA 99\n").toList = some (.ok [3, 9, 9]) ∧
    lmasm_main 200 (" STA 100\n").toList = some (.err (.mailboxRange "STA" 100)) ∧
    lmasm_exit_code (.err (.datRange 1000)) = 1 ∧
    lmasm_exit_code (.err (.mailboxRange "STA" 100)) = 1 := by
  exact ⟨by decide, by decide, by decide, by decide, by decide,
    by decide, by decide, by decide, by decide, by decide⟩

/-- C9: `HLT` and `COB` are both catalog rows with the writer
`lmasm_write_op` and opcode value 0, so both emit the identical all-zero
mailbox `[0,0,0]` and whole-source assemblies of the two mnemonics are
byte-identical; a mailbox word of 0 executes as halt in the emulator
(clean stop, no error, exit code 0). -/
theorem C9_hlt_cob :
    opcode_lookup "HLT" =
      some { name := "HLT", write := .write_op, code := 0, arg_format := .NO_ARGUMENT } ∧
    opcode_lookup "COB" =
      some { name := "COB", write := .write_op, code := 0, arg_format := .NO_ARGUMENT } ∧
    opcode_write { name := "HLT", write := .write_op, code := 0, arg_format := .NO_ARGUMENT }
      (conf_init 3) 0 = .ok [0, 0, 0] ∧
    opcode_write { name := "COB", write := .write_op, code := 0, arg_format := .NO_ARGUMENT }
      (conf_init 3) 0 = .ok [0, 0, 0] ∧
    lmasm_main 200 (" HLT\n").toList = lmasm_main 200 (" COB\n").toList ∧
    lmasm_main 200 (" HLT\n").toList = some (.ok [0, 0, 0]) ∧
    (∀ m : lmc, (lmc_halt m).cpu.halted = true) ∧
    run_is_halted (lmc_run 3 (lmc_init (0 :: List.replicate 99 0) [])) = true ∧
    run_exit_code (lmc_run 3 (lmc_init (0 :: List.replicate 99 0) [])) = some 0 ∧
    run_dump_count (lmc_run 3 (lmc_init (0 :: List.replicate 99 0) [])) = some 0 := by
  exact ⟨by decide, by decide, by decide, by decide, by decide, by decide,
    fun m => rfl, by decide, by decide, by decide⟩

/-- A 3-byte image loads into mailbox 0 by the loop accumulation, the
other 99 mailboxes staying zero. -/
theorem lmc_load_image_three (x y z : Int) :
    lmc_load_image [x, y, z] = .ok (mailbox_of_digits [x, y, z] :: List.replicate 99 0) := by
  have h1 : load_loop [x, y, z] 0 (List.replicate NUM_MAILBOXES 0) =
      some (mailbox_of_digits [x, y, z] :: List.replicate 99 0) := rfl
  unfold lmc_load_image
  rw [h1]
  simp [NUM_DIGITS]

/-- C1: for every instruction with an address operand, opcode value
`o` in 0..9 and resolved operand `a` in 0..max_addr, `lmasm_write_op`
emits the byte `o` followed by the two big-endian decimal digits of `a`;
loading those three bytes accumulates the mailbox word `o * 100 + a`,
and the emulator decode (`opcode = word / NUM_MAILBOXES`,
`addr = word % NUM_MAILBOXES`) recovers exactly the pair `(o, a)`. -/
theorem C1_encode_decode (name : String) (o a : Nat) (ho : o ≤ 9) (ha : a ≤ 99) :
    lmasm_write_op name (o : Int) (conf_init 3) (a : Int) =
      .ok [(o : Int), ((a / 10 : Nat) : Int), ((a % 10 : Nat) : Int)] ∧
    lmc_load_image [(o : Int), ((a / 10 : Nat) : Int), ((a % 10 : Nat) : Int)] =
      .ok (((o * 100 + a : Nat) : Int) :: List.replicate 99 0) ∧
    Int.tdiv ((o * 100 + a : Nat) : Int) (NUM_MAILBOXES : Int) = (o : Int) ∧
    Int.tmod ((o * 100 + a : Nat) : Int) (NUM_MAILBOXES : Int) = (a : Int) := by
  have hdiv : a / 10 % 10 = a / 10 := by omega
  refine ⟨?_, ?_, ?_, ?_⟩
  · have hg : ¬((a : Int) < 0 ∨ (a : Int) > (conf_init 3).max_addr) := by
      show ¬((a : Int) < 0 ∨ (a : Int) > 99)
      omega
    unfold lmasm_write_op
    rw [if_neg hg]
    have hnum : (conf_init 3).num_digits = 3 := rfl
    rw [hnum]
    have e : encode_decimal (a : Int) 3 =
        [((a / 10 / 10 % 10 : Nat) : Int), ((a / 10 % 10 : Nat) : Int),
          ((a % 10 : Nat) : Int)] := rfl
    rw [e, hdiv]
    rfl
  · rw [lmc_load_image_three]
    have em : mailbox_of_digits [(o : Int), ((a / 10 : Nat) : Int), ((a % 10 : Nat) : Int)] =
        ((o * 100 + a : Nat) : Int) := by
      show ((0 * 10 + (o : Int)) * 10 + ((a / 10 : Nat) : Int)) * 10 + ((a % 10 : Nat) : Int) = _
      push_cast
      omega
    rw [em]
  · show (((o * 100 + a) / NUM_MAILBOXES : Nat) : Int) = (o : Int)
    rw [Nat.cast_inj]
    simp only [NUM_MAILBOXES]
    omega
  · show (((o * 100 + a) % NUM_MAILBOXES : Nat) : Int) = (a : Int)
    rw [Nat.cast_inj]
    simp only [NUM_MAILBOXES]
    omega

/-- C1 witness: the theorem applied to the concrete opcode 6 (`BRA`)
and operand 42. -/
theorem C1_encode_decode_witness :
    (6 : Nat) ≤ 9 ∧ (42 : Nat) ≤ 99 ∧
    (lmasm_write_op "BRA" ((6 : Nat) : Int) (conf_init 3) ((42 : Nat) : Int) =
        .ok [((6 : Nat) : Int), ((42 / 10 : Nat) : Int), ((42 % 10 : Nat) : Int)] ∧
      lmc_load_image [((6 : Nat) : Int), ((42 / 10 : Nat) : Int), ((42 % 10 : Nat) : Int)] =
        .ok (((6 * 100 + 42 : Nat) : Int) :: List.replicate 99 0) ∧
      Int.tdiv ((6 * 100 + 42 : Nat) : Int) (NUM_MAILBOXES : Int) = ((6 : Nat) : Int) ∧
      Int.tmod ((6 * 100 + 42 : Nat) : Int) (NUM_MAILBOXES : Int) = ((42 : Nat) : Int)) :=
  ⟨by omega, by omega, C1_encode_decode "BRA" 6 42 (by omega) (by omega)⟩

/-- The table scan returns `none` when no entry has the wanted name. -/
theorem label_lookup_none (labels : List lmasm_label) (name : String) :
    (∀ l ∈ labels, l.name ≠ name) → label_lookup labels name = none := by
  induction labels with
  | nil => intro _; rfl
  | cons l rest ih =>
    intro h
    show (if name = l.name then some l.addr else label_lookup rest name) = none
    rw [if_neg fun he => h l (by simp) he.symm]
    exact ih fun x hx => h x (List.mem_cons_of_mem _ hx)

/-- The table scan returns the first entry with the wanted name,
whatever comes after it. -/
theorem label_lookup_first (pre : List lmasm_label) (post : List lmasm_label)
    (name : String) (addr : Int) :
    (∀ l ∈ pre, l.name ≠ name) →
    label_lookup (pre ++ { name := name, addr := addr } :: post) name = some addr := by
  induction pre with
  | nil =>
    intro _
    show (if name = name then some addr else _) = some addr
    rw [if_pos rfl]
  | cons l rest ih =>
    intro h
    show (if name = l.name then some l.addr
          else label_lookup (rest ++ { name := name, addr := addr } :: post) name) = some addr
    rw [if_neg fun he => h l (by simp) he.symm]
    exact ih fun x hx => h x (List.mem_cons_of_mem _ hx)

/-- C2: operand label resolution scans the table in insertion (pass 1)
order and the first definition with a matching name wins; later
same-name definitions are kept in the table but never returned.  If no
definition matches, `parse_addr` fails with the `no such label`
diagnostic naming the current source line and the label, and the whole
assembler run aborts with exit code 1 (shown on the source
`" BRA NOPE"`, reported as `NOPE` on line 1). -/
theorem C2_label_resolution :
    (∀ (pre post : List lmasm_label) (name : String) (addr : Int),
      (∀ l ∈ pre, l.name ≠ name) →
      label_lookup (pre ++ { name := name, addr := addr } :: post) name = some addr) ∧
    (∀ (labels : List lmasm_label) (name : String),
      (∀ l ∈ labels, l.name ≠ name) → label_lookup labels name = none) ∧
    (∀ (labels : List lmasm_label) (line : Nat),
      label_lookup labels "NOPE" = none →
      parse_addr ("NOPE\n").toList labels line = .error (.undefinedLabel line "NOPE")) ∧
    pass1_loop 20 ("A HLT\nA HLT\n").toList ⟨[], 0, 0⟩ =
      some (.ok ⟨[⟨"A", 0⟩, ⟨"A", 1⟩], 2, 4⟩) ∧
    label_lookup [⟨"A", 0⟩, ⟨"A", 1⟩] "A" = some 0 ∧
    lmasm_main 20 (" BRA NOPE\n").toList = some (.err (.undefinedLabel 1 "NOPE")) ∧
    lmasm_exit_code (.err (.undefinedLabel 1 "NOPE")) = 1 := by
  refine ⟨label_lookup_first, label_lookup_none, ?_, by decide, by decide, by decide, rfl⟩
  intro labels line h
  have e : parse_addr ("NOPE\n").toList labels line =
      (match label_lookup labels "NOPE" with
       | none => Except.error (AsmErr.undefinedLabel line "NOPE")
       | some addr =>
         match finish_line ['\n'] false line with
         | (.error er, _) => Except.error er
         | (.ok _, s3) => Except.ok (addr, s3)) := rfl
  rw [e, h]

/-- C2 witness: first-match lookup through a table with a shadowing
later definition, the none-result on a table without the name, and the
`no such label` failure of `parse_addr` at line 4. -/
theorem C2_label_resolution_witness :
    label_lookup ([⟨"X", 7⟩] ++ { name := "NOPE", addr := 3 } :: [⟨"NOPE", 9⟩]) "NOPE" =
      some 3 ∧
    label_lookup [⟨"X", 7⟩] "NOPE" = none ∧
    parse_addr ("NOPE\n").toList [⟨"X", 7⟩] 4 = .error (.undefinedLabel 4 "NOPE") :=
  ⟨C2_label_resolution.1 [⟨"X", 7⟩] [⟨"NOPE", 9⟩] "NOPE" 3 (by decide),
   C2_label_resolution.2.1 [⟨"X", 7⟩] "NOPE" (by decide),
   C2_label_resolution.2.2.1 [⟨"X", 7⟩] 4
     (C2_label_resolution.2.1 [⟨"X", 7⟩] "NOPE" (by decide))⟩

/-- C5: with accumulator and addressed mailbox both in `[0, MAX_VALUE]`,
`lmc_add` sets the negative flag and wraps by `MAX_VALUE + 1` exactly
when the raw sum exceeds `MAX_VALUE`, otherwise clears it; `lmc_sub`
sets the flag and wraps exactly when the raw difference is negative;
both leave the accumulator in `[0, MAX_VALUE]`. -/
theorem C5_add_sub_wrap (m : lmc) (v : Int)
    (hmem : memRead m.mailboxes m.cpu.addr = some v)
    (ha0 : 0 ≤ m.cpu.a) (ha1 : m.cpu.a ≤ MAX_VALUE)
    (hv0 : 0 ≤ v) (hv1 : v ≤ MAX_VALUE) :
    (∃ m1, lmc_add m = some m1 ∧
      (m1.cpu.neg = true ↔ m.cpu.a + v > MAX_VALUE) ∧
      m1.cpu.a =
        (if m.cpu.a + v > MAX_VALUE then m.cpu.a + v - (MAX_VALUE + 1) else m.cpu.a + v) ∧
      0 ≤ m1.cpu.a ∧ m1.cpu.a ≤ MAX_VALUE) ∧
    (∃ m2, lmc_sub m = some m2 ∧
      (m2.cpu.neg = true ↔ m.cpu.a - v < 0) ∧
      m2.cpu.a =
        (if m.cpu.a - v < 0 then m.cpu.a - v + (MAX_VALUE + 1) else m.cpu.a - v) ∧
      0 ≤ m2.cpu.a ∧ m2.cpu.a ≤ MAX_VALUE) := by
  have hM : MAX_VALUE = 999 := rfl
  constructor
  · have hadd : lmc_add m = some { m with cpu := { m.cpu with
        a := if m.cpu.a + v > MAX_VALUE then m.cpu.a + v - (MAX_VALUE + 1) else m.cpu.a + v,
        neg := decide (m.cpu.a + v > MAX_VALUE) } } := by
      unfold lmc_add
      rw [hmem]
    refine ⟨_, hadd, ?_, rfl, ?_, ?_⟩
    · show decide (m.cpu.a + v > MAX_VALUE) = true ↔ _
      exact decide_eq_true_iff
    · show 0 ≤ if m.cpu.a + v > MAX_VALUE then m.cpu.a + v - (MAX_VALUE + 1) else m.cpu.a + v
      rw [hM] at ha1 hv1 ⊢
      split <;> omega
    · show (if m.cpu.a + v > MAX_VALUE then m.cpu.a + v - (MAX_VALUE + 1) else m.cpu.a + v) ≤
        MAX_VALUE
      rw [hM] at ha1 hv1 ⊢
      split <;> omega
  · have hsub : lmc_sub m = some { m with cpu := { m.cpu with
        a := if m.cpu.a - v < 0 then m.cpu.a - v + (MAX_VALUE + 1) else m.cpu.a - v,
        neg := decide (m.cpu.a - v < 0) } } := by
      unfold lmc_sub
      rw [hmem]
    refine ⟨_, hsub, ?_, rfl, ?_, ?_⟩
    · show decide (m.cpu.a - v < 0) = true ↔ _
      exact decide_eq_true_iff
    · show 0 ≤ if m.cpu.a - v < 0 then m.cpu.a - v + (MAX_VALUE + 1) else m.cpu.a - v
      rw [hM] at ha1 hv1 ⊢
      split <;> omega
    · show (if m.cpu.a - v < 0 then m.cpu.a - v + (MAX_VALUE + 1) else m.cpu.a - v) ≤ MAX_VALUE
      rw [hM] at ha1 hv1 ⊢
      split <;> omega

/-- A machine with accumulator 600, address field 0 and 500 in mailbox
0, used to witness the wraparound theorem. -/
def c5_machine : lmc :=
  { mailboxes := 500 :: List.replicate 99 0, cpu := { lmc_cpu_init with a := 600 } }

/-- C5 witness: the theorem applied to the concrete machine with
`a = 600` and `mailboxes[0] = 500` (the add wraps, the subtract does
not). -/
theorem C5_add_sub_wrap_witness :
    memRead c5_machine.mailboxes c5_machine.cpu.addr = some 500 ∧
    0 ≤ c5_machine.cpu.a ∧ c5_machine.cpu.a ≤ MAX_VALUE ∧
    0 ≤ (500 : Int) ∧ (500 : Int) ≤ MAX_VALUE ∧
    ((∃ m1, lmc_add c5_machine = some m1 ∧
        (m1.cpu.neg = true ↔ c5_machine.cpu.a + 500 > MAX_VALUE) ∧
        m1.cpu.a = (if c5_machine.cpu.a + 500 > MAX_VALUE then
          c5_machine.cpu.a + 500 - (MAX_VALUE + 1) else c5_machine.cpu.a + 500) ∧
        0 ≤ m1.cpu.a ∧ m1.cpu.a ≤ MAX_VALUE) ∧
      (∃ m2, lmc_sub c5_machine = some m2 ∧
        (m2.cpu.neg = true ↔ c5_machine.cpu.a - 500 < 0) ∧
        m2.cpu.a = (if c5_machine.cpu.a - 500 < 0 then
          c5_machine.cpu.a - 500 + (MAX_VALUE + 1) else c5_machine.cpu.a - 500) ∧
        0 ≤ m2.cpu.a ∧ m2.cpu.a ≤ MAX_VALUE)) :=
  ⟨by decide, by decide, by decide, by decide, by decide,
   C5_add_sub_wrap c5_machine 500 (by decide) (by decide) (by decide) (by decide) (by decide)⟩

/-- A run starting on a halted CPU returns at once. -/
theorem lmc_run_halted (fuel : Nat) (es : ExecState) (h : es.m.cpu.halted = true) :
    lmc_run (fuel + 1) es = .halted es := by
  simp [lmc_run, h]

/-- One loop iteration on a running CPU with an in-range fetch is the
decode followed by the dispatch. -/
theorem lmc_run_step (fuel : Nat) (es : ExecState) (w : Int)
    (hh : es.m.cpu.halted = false)
    (hf : memRead es.m.mailboxes es.m.cpu.pc = some w) :
    lmc_run (fuel + 1) es =
      (match lmc_exec (fetch_decode es w) with
       | .next es2 => lmc_run fuel es2
       | .brk es2 => .halted es2
       | .undef es2 => .undef es2
       | .blocked es2 => .blocked es2) := by
  simp [lmc_run, hh, hf]

/-- Dispatch on opcode 4 hits the `NULL` entry of `OPS`:
`bad_instruction` then `break`. -/
theorem lmc_exec_op4 (es1 : ExecState) (h : es1.m.cpu.opcode = 4) :
    lmc_exec es1 = .brk (bad_instruction es1) := by
  unfold lmc_exec
  rw [if_neg (by omega), if_neg (by omega), h]
  rfl

/-- Dispatch on an opcode above 9: `bad_instruction` then `break`. -/
theorem lmc_exec_gt9 (es1 : ExecState) (h : es1.m.cpu.opcode > 9) :
    lmc_exec es1 = .brk (bad_instruction es1) := by
  unfold lmc_exec
  rw [if_pos h]

/-- Dispatch to I/O with an address field other than 1 or 2 falls to the
`default` case of `lmc_io`: `bad_instruction`, after which the loop
condition stops the machine. -/
theorem lmc_exec_io_bad (es1 : ExecState) (h9 : es1.m.cpu.opcode = 9)
    (h1 : es1.m.cpu.addr ≠ 1) (h2 : es1.m.cpu.addr ≠ 2) :
    lmc_exec es1 = .next (bad_instruction es1) := by
  unfold lmc_exec
  rw [if_neg (by omega), if_neg (by omega), h9]
  show (match lmc_io es1 with
        | none => StepAction.blocked es1
        | some es2 => StepAction.next es2) = _
  unfold lmc_io
  rw [if_neg h1, if_neg h2]

/-- C6: whenever the fetched word decodes to opcode 4, an opcode above
9, or opcode 9 with an address field other than 1 or 2, the machine
prints a full CPU dump to the error stream, sets `halted` and `error`,
performs no further fetch (the run ends right there), and the process
exit code is 1. -/
theorem C6_bad_instruction (es : ExecState) (w : Int) (n : Nat)
    (hh : es.m.cpu.halted = false)
    (hf : memRead es.m.mailboxes es.m.cpu.pc = some w)
    (hbad : Int.tdiv w (NUM_MAILBOXES : Int) = 4 ∨ Int.tdiv w (NUM_MAILBOXES : Int) > 9 ∨
      (Int.tdiv w (NUM_MAILBOXES : Int) = 9 ∧
        Int.tmod w (NUM_MAILBOXES : Int) ≠ 1 ∧ Int.tmod w (NUM_MAILBOXES : Int) ≠ 2)) :
    lmc_run (n + 2) es = .halted (bad_instruction (fetch_decode es w)) ∧
    (bad_instruction (fetch_decode es w)).m.cpu.halted = true ∧
    (bad_instruction (fetch_decode es w)).m.cpu.error = true ∧
    (bad_instruction (fetch_decode es w)).dumps = es.dumps ++ [(fetch_decode es w).m.cpu] ∧
    lmc_exit_code (bad_instruction (fetch_decode es w)) = 1 := by
  have hop : (fetch_decode es w).m.cpu.opcode = Int.tdiv w (NUM_MAILBOXES : Int) := rfl
  have had : (fetch_decode es w).m.cpu.addr = Int.tmod w (NUM_MAILBOXES : Int) := rfl
  refine ⟨?_, rfl, rfl, rfl, rfl⟩
  have hrun := lmc_run_step (n + 1) es w hh hf
  rcases hbad with h4 | h9p | ⟨h9, hio1, hio2⟩
  · rw [hrun, lmc_exec_op4 _ (by rw [hop, h4])]
  · rw [hrun, lmc_exec_gt9 _ (by rw [hop]; exact h9p)]
  · rw [hrun, lmc_exec_io_bad _ (by rw [hop, h9]) (by rw [had]; exact hio1)
      (by rw [had]; exact hio2)]
    exact lmc_run_halted n _ rfl

/-- An image whose first mailbox holds 400 (the unused opcode 4). -/
def c6_state : ExecState := lmc_init (400 :: List.replicate 99 0) []

/-- C6 witness: the theorem applied to the image whose first mailbox
decodes to opcode 4 — it halts immediately with a dump, `error = true`
and exit code 1. -/
theorem C6_bad_instruction_witness :
    c6_state.m.cpu.halted = false ∧
    memRead c6_state.m.mailboxes c6_state.m.cpu.pc = some 400 ∧
    Int.tdiv 400 (NUM_MAILBOXES : Int) = 4 ∧
    (lmc_run (0 + 2) c6_state = .halted (bad_instruction (fetch_decode c6_state 400)) ∧
      (bad_instruction (fetch_decode c6_state 400)).m.cpu.halted = true ∧
      (bad_instruction (fetch_decode c6_state 400)).m.cpu.error = true ∧
      (bad_instruction (fetch_decode c6_state 400)).dumps =
        c6_state.dumps ++ [(fetch_decode c6_state 400).m.cpu] ∧
      lmc_exit_code (bad_instruction (fetch_decode c6_state 400)) = 1) :=
  ⟨rfl, by decide, by decide,
   C6_bad_instruction c6_state 400 0 rfl (by decide) (Or.inl (by decide))⟩

/-- C7 (amended): the fetch `mailboxes[pc++]` is not guarded — once the
program counter reaches `NUM_MAILBOXES` the next fetch reads outside the
mailbox array, which is undefined behavior (the `undef` outcome), not a
defined fatal bounds error. -/
theorem C7_unchecked_fetch (es : ExecState) (n : Nat)
    (hlen : es.m.mailboxes.length = NUM_MAILBOXES)
    (hh : es.m.cpu.halted = false)
    (hpc : es.m.cpu.pc ≥ (NUM_MAILBOXES : Int)) :
    memRead es.m.mailboxes es.m.cpu.pc = none ∧
    lmc_run (n + 1) es = .undef es := by
  have hcond : ¬(0 ≤ es.m.cpu.pc ∧ (es.m.cpu.pc).toNat < es.m.mailboxes.length) := by
    rw [hlen]
    simp only [NUM_MAILBOXES] at hpc ⊢
    omega
  have hm : memRead es.m.mailboxes es.m.cpu.pc = none := by
    unfold memRead
    rw [if_neg hcond]
  refine ⟨hm, ?_⟩
  simp [lmc_run, hh, hm]

/-- A machine state whose program counter already sits one past the
last mailbox. -/
def c7_state : ExecState :=
  { m := { mailboxes := List.replicate 100 0, cpu := { lmc_cpu_init with pc := 100 } },
    inputs := [], outputs := [], dumps := [] }

/-- C7 witness: the amended theorem applied to a state with
`pc = 100`. -/
theorem C7_unchecked_fetch_witness :
    c7_state.m.mailboxes.length = NUM_MAILBOXES ∧
    c7_state.m.cpu.halted = false ∧
    c7_state.m.cpu.pc ≥ (NUM_MAILBOXES : Int) ∧
    (memRead c7_state.m.mailboxes c7_state.m.cpu.pc = none ∧
      lmc_run (0 + 1) c7_state = .undef c7_state) :=
  ⟨by decide, rfl, by decide, C7_unchecked_fetch c7_state 0 (by decide) rfl (by decide)⟩

/-- C7, counterexample to the claim as stated: the claim says the fetch
is guarded so the machine stops fatally when `pc` passes the last
mailbox; but running the image `699, 0, ..., 0, 100` (a branch to
mailbox 99, whose `ADD` instruction lets `pc` reach 100) ends in the
out-of-bounds fetch outcome at `pc = 100`, not in any defined halted
stop. -/
theorem C7_counterexample :
    run_is_undef (lmc_run 10 (lmc_init (699 :: (List.replicate 98 0 ++ [100])) [])) = true ∧
    run_is_halted (lmc_run 10 (lmc_init (699 :: (List.replicate 98 0 ++ [100])) [])) = false ∧
    run_pc (lmc_run 10 (lmc_init (699 :: (List.replicate 98 0 ++ [100])) [])) = 100 := by
  exact ⟨by decide, by decide, by decide⟩

/-- While the write index stays under `NUM_MAILBOXES`, the load loop
stores every byte. -/
theorem load_loop_in_bounds (bytes : List Int) : ∀ (i : Nat) (mem : List Int),
    mem.length = NUM_MAILBOXES → i + bytes.length ≤ 300 →
    (load_loop bytes i mem).isSome := by
  induction bytes with
  | nil => intro i mem _ _; rfl
  | cons c rest ih =>
    intro i mem hm h
    rw [NUM_MAILBOXES_eq] at hm
    rw [List.length_cons] at h
    unfold load_loop
    rw [if_pos (show i / NUM_DIGITS < mem.length by rw [hm, NUM_DIGITS_eq]; omega)]
    exact ih (i + 1) _ (by rw [List.length_set, hm, NUM_MAILBOXES_eq]) (by omega)

/-- Once the byte stream runs past `NUM_MAILBOXES * NUM_DIGITS` bytes,
the load loop reaches the out-of-bounds write. -/
theorem load_loop_overflow (bytes : List Int) : ∀ (i : Nat) (mem : List Int),
    mem.length = NUM_MAILBOXES → i ≤ 300 → i + bytes.length > 300 →
    load_loop bytes i mem = none := by
  induction bytes with
  | nil => intro i mem _ h1 h2; simp only [List.length_nil] at h2; omega
  | cons c rest ih =>
    intro i mem hm h1 h2
    rw [NUM_MAILBOXES_eq] at hm
    rw [List.length_cons] at h2
    unfold load_loop
    by_cases hi : i ≤ 299
    · rw [if_pos (show i / NUM_DIGITS < mem.length by rw [hm, NUM_DIGITS_eq]; omega)]
      exact ih (i + 1) _ (by rw [List.length_set, hm, NUM_MAILBOXES_eq]) (by omega) (by omega)
    · rw [if_neg (show ¬(i / NUM_DIGITS < mem.length) by rw [hm, NUM_DIGITS_eq]; omega)]

/-- C10: the image loader validates only that the byte count is a
multiple of `NUM_DIGITS` and never checks the mailbox count against
`NUM_MAILBOXES`: for streams of at most `NUM_MAILBOXES * NUM_DIGITS`
bytes every write lands inside the array and the only error is the
size-multiple check, while any longer stream drives the write
`mailboxes[i / NUM_DIGITS]` out of bounds — there is no
`image too large` error path. -/
theorem C10_loader (bytes : List Int) :
    (bytes.length ≤ NUM_MAILBOXES * NUM_DIGITS →
      lmc_load_image bytes ≠ .undef ∧
      (lmc_load_image bytes = .sizeErr ↔ bytes.length % NUM_DIGITS ≠ 0)) ∧
    (bytes.length > NUM_MAILBOXES * NUM_DIGITS → lmc_load_image bytes = .undef) := by
  constructor
  · intro hlen
    have hs := load_loop_in_bounds bytes 0 (List.replicate NUM_MAILBOXES 0)
      (by simp) (by rw [NUM_MAILBOXES_eq, NUM_DIGITS_eq] at hlen; omega)
    obtain ⟨mem, hmem⟩ := Option.isSome_iff_exists.mp hs
    unfold lmc_load_image
    rw [hmem]
    dsimp only
    by_cases h3 : bytes.length % NUM_DIGITS ≠ 0
    · rw [if_pos h3]
      exact ⟨by simp, by simp [h3]⟩
    · rw [if_neg h3]
      exact ⟨by simp, by simp [h3]⟩
  · intro hlen
    have h := load_loop_overflow bytes 0 (List.replicate NUM_MAILBOXES 0)
      (by simp) (by omega) (by rw [NUM_MAILBOXES_eq, NUM_DIGITS_eq] at hlen; omega)
    unfold lmc_load_image
    rw [h]

/-- C10 witness: a 300-byte stream loads without any out-of-bounds
write and passes the size check, while a 301-byte stream drives the
loader out of bounds. -/
theorem C10_loader_witness :
    ((List.replicate 300 (0 : Int)).length ≤ NUM_MAILBOXES * NUM_DIGITS ∧
      lmc_load_image (List.replicate 300 (0 : Int)) ≠ .undef ∧
      (lmc_load_image (List.replicate 300 (0 : Int)) = .sizeErr ↔
        (List.replicate 300 (0 : Int)).length % NUM_DIGITS ≠ 0)) ∧
    ((List.replicate 301 (0 : Int)).length > NUM_MAILBOXES * NUM_DIGITS ∧
      lmc_load_image (List.replicate 301 (0 : Int)) = .undef) := by
  have h1 := (C10_loader (List.replicate 300 (0 : Int))).1
    (by norm_num [NUM_MAILBOXES, NUM_DIGITS])
  have h2 := (C10_loader (List.replicate 301 (0 : Int))).2
    (by norm_num [NUM_MAILBOXES, NUM_DIGITS])
  exact ⟨⟨by norm_num [NUM_MAILBOXES, NUM_DIGITS], h1.1, h1.2⟩,
    ⟨by norm_num [NUM_MAILBOXES, NUM_DIGITS], h2⟩⟩
